import Mathlib

/-!
Verification of the Token Bucket Filter (TBF) qdisc module
(src/network/tc/tbf.c): data model, validator, config-line field
updates, and the netlink attribute encoder, shallowly embedded in Lean.

Machine integers are modelled as natural numbers. The C double
computation of the derived queue limit is modelled with exact rational
arithmetic together with truncation toward zero at the assignment to
the 32-bit record field; all quantities involved are non-negative, so
truncation toward zero coincides with the floor.
-/

namespace Systemd.Tc.Tbf

/-- USEC_PER_SEC from the time utilities: microseconds per second. -/
def USEC_PER_SEC : ℕ := 1000000

/-- The errno value EINVAL; the validator returns -EINVAL on rejection. -/
def EINVAL : Int := 22

/-- The TokenBufferFilter configuration entity: one instance per
configured [TokenBufferFilter] section. rate and peak_rate are in
bytes per second, burst, limit, mtu, mpu in bytes, latency in
microseconds; 0 means unset for each of them. -/
structure TokenBufferFilter where
  rate : ℕ
  peak_rate : ℕ
  burst : ℕ
  limit : ℕ
  mtu : ℕ
  mpu : ℕ
  latency : ℕ
deriving Repr, DecidableEq

/-- token_buffer_filter_verify (tbf.c lines 243-277): the conjunctive
rule set run at apply time. Each rule, in source order, rejects the
section with -EINVAL (via log_warning_errno with SYNTHETIC_ERRNO(EINVAL));
a section violating no rule is accepted with 0. -/
def token_buffer_filter_verify (t : TokenBufferFilter) : Int :=
  if 0 < t.limit ∧ 0 < t.latency then -EINVAL
  else if t.limit = 0 ∧ t.latency = 0 then -EINVAL
  else if t.rate = 0 then -EINVAL
  else if t.burst = 0 then -EINVAL
  else if 0 < t.peak_rate ∧ t.mtu = 0 then -EINVAL
  else 0

/-- The five invariants of the data model, stated as the spec lists
them: exactly one of limit, latency is nonzero; rate and burst are
mandatory; mtu is mandatory when peak_rate is set. -/
def ValidTbf (t : TokenBufferFilter) : Prop :=
  ¬(0 < t.limit ∧ 0 < t.latency) ∧
  ¬(t.limit = 0 ∧ t.latency = 0) ∧
  t.rate ≠ 0 ∧
  t.burst ≠ 0 ∧
  ¬(0 < t.peak_rate ∧ t.mtu = 0)

instance (t : TokenBufferFilter) : Decidable (ValidTbf t) := by
  unfold ValidTbf
  infer_instance

/-- config_parse_token_buffer_filter_size (tbf.c lines 113-187), after
the entity has been obtained from the registry (qdisc_new_static is the
external registry step and is outside this module per the spec).
parse_size is the external human-size parser, applied with kilo = 1000;
none models a negative return. The handler returns a pair of the C
return value and the updated entity. An empty value resets the named
field to 0; a failed parse leaves the entity untouched; a parsed value
k is stored divided by 8 for Rate and PeakRate and verbatim otherwise.
The if chains mirror the streq chains of the source, in source order. -/
def config_parse_token_buffer_filter_size
    (parse_size : String → Option ℕ) (lvalue rvalue : String)
    (tbf : TokenBufferFilter) : Int × TokenBufferFilter :=
  if rvalue = "" then
    (0, if lvalue = "Rate" then { tbf with rate := 0 }
        else if lvalue = "Burst" then { tbf with burst := 0 }
        else if lvalue = "LimitSize" then { tbf with limit := 0 }
        else if lvalue = "MTUBytes" then { tbf with mtu := 0 }
        else if lvalue = "MPUBytes" then { tbf with mpu := 0 }
        else if lvalue = "PeakRate" then { tbf with peak_rate := 0 }
        else tbf)
  else
    match parse_size rvalue with
    | none => (0, tbf)
    | some k =>
        (0, if lvalue = "Rate" then { tbf with rate := k / 8 }
            else if lvalue = "Burst" then { tbf with burst := k }
            else if lvalue = "LimitSize" then { tbf with limit := k }
            else if lvalue = "MPUBytes" then { tbf with mpu := k }
            else if lvalue = "MTUBytes" then { tbf with mtu := k }
            else if lvalue = "PeakRate" then { tbf with peak_rate := k / 8 }
            else tbf)

/-- config_parse_token_buffer_filter_latency (tbf.c lines 189-241),
after the registry step. parse_sec is the external human-duration
parser returning microseconds; none models a negative return. The
source does not inspect lvalue here: the only latency option is
LatencySec. -/
def config_parse_token_buffer_filter_latency
    (parse_sec : String → Option ℕ) (rvalue : String)
    (tbf : TokenBufferFilter) : Int × TokenBufferFilter :=
  if rvalue = "" then
    (0, { tbf with latency := 0 })
  else
    match parse_sec rvalue with
    | none => (0, tbf)
    | some u => (0, { tbf with latency := u })

/-- C3: the validator accepts a configuration exactly when all five
invariants hold, and every rejection returns the EINVAL-class error
-EINVAL; each rule fires independently of the others, which the
equivalence captures. -/
theorem tbf_verify_accepts_iff_invariants (t : TokenBufferFilter) :
    (token_buffer_filter_verify t = 0 ↔ ValidTbf t) ∧
    (token_buffer_filter_verify t = 0 ∨ token_buffer_filter_verify t = -EINVAL) := by
  unfold token_buffer_filter_verify ValidTbf EINVAL
  split_ifs with h1 h2 h3 h4 h5 <;> simp_all

/-- C7: a field-update call whose non-empty value fails to parse
returns success (0) and leaves the entity exactly as it was, for both
the size handler (any option name) and the latency handler. -/
theorem tbf_parse_failure_noop
    (ps pl : String → Option ℕ) (lv rv : String) (t : TokenBufferFilter)
    (hrv : rv ≠ "") (hps : ps rv = none) (hpl : pl rv = none) :
    config_parse_token_buffer_filter_size ps lv rv t = (0, t) ∧
    config_parse_token_buffer_filter_latency pl rv t = (0, t) := by
  unfold config_parse_token_buffer_filter_size
    config_parse_token_buffer_filter_latency
  simp [hrv, hps, hpl]

theorem tbf_parse_failure_noop_witness :
    config_parse_token_buffer_filter_size (fun _ => none) "Rate" "x"
      ⟨1, 2, 3, 4, 5, 6, 7⟩ = (0, ⟨1, 2, 3, 4, 5, 6, 7⟩) ∧
    config_parse_token_buffer_filter_latency (fun _ => none) "x"
      ⟨1, 2, 3, 4, 5, 6, 7⟩ = (0, ⟨1, 2, 3, 4, 5, 6, 7⟩) :=
  tbf_parse_failure_noop (fun _ => none) (fun _ => none) "Rate" "x"
    ⟨1, 2, 3, 4, 5, 6, 7⟩ (by decide) rfl rfl

/-- C8: an empty value resets exactly the field named by the option to
0 and changes no other field, returning success, for each of the seven
recognized options. -/
theorem tbf_empty_value_resets_field
    (ps pl : String → Option ℕ) (t : TokenBufferFilter) :
    config_parse_token_buffer_filter_size ps "Rate" "" t = (0, { t with rate := 0 }) ∧
    config_parse_token_buffer_filter_size ps "Burst" "" t = (0, { t with burst := 0 }) ∧
    config_parse_token_buffer_filter_size ps "LimitSize" "" t = (0, { t with limit := 0 }) ∧
    config_parse_token_buffer_filter_size ps "MTUBytes" "" t = (0, { t with mtu := 0 }) ∧
    config_parse_token_buffer_filter_size ps "MPUBytes" "" t = (0, { t with mpu := 0 }) ∧
    config_parse_token_buffer_filter_size ps "PeakRate" "" t = (0, { t with peak_rate := 0 }) ∧
    config_parse_token_buffer_filter_latency pl "" t = (0, { t with latency := 0 }) := by
  refine ⟨?_, ?_, ?_, ?_, ?_, ?_, ?_⟩ <;> rfl

/-- C9: a size option whose value parses to k stores k / 8 (natural
division, truncating) for Rate and PeakRate and k verbatim for Burst,
LimitSize, MPUBytes and MTUBytes, leaving every other field unchanged. -/
theorem tbf_size_parse_stores
    (ps : String → Option ℕ) (rv : String) (k : ℕ) (t : TokenBufferFilter)
    (hrv : rv ≠ "") (hk : ps rv = some k) :
    config_parse_token_buffer_filter_size ps "Rate" rv t = (0, { t with rate := k / 8 }) ∧
    config_parse_token_buffer_filter_size ps "Burst" rv t = (0, { t with burst := k }) ∧
    config_parse_token_buffer_filter_size ps "LimitSize" rv t = (0, { t with limit := k }) ∧
    config_parse_token_buffer_filter_size ps "MPUBytes" rv t = (0, { t with mpu := k }) ∧
    config_parse_token_buffer_filter_size ps "MTUBytes" rv t = (0, { t with mtu := k }) ∧
    config_parse_token_buffer_filter_size ps "PeakRate" rv t = (0, { t with peak_rate := k / 8 }) := by
  unfold config_parse_token_buffer_filter_size
  simp [hrv, hk]

theorem tbf_size_parse_stores_witness :
    config_parse_token_buffer_filter_size (fun _ => some 16) "Rate" "16"
      ⟨0, 0, 0, 0, 0, 0, 0⟩ = (0, ⟨2, 0, 0, 0, 0, 0, 0⟩) ∧
    config_parse_token_buffer_filter_size (fun _ => some 16) "Burst" "16"
      ⟨0, 0, 0, 0, 0, 0, 0⟩ = (0, ⟨0, 0, 16, 0, 0, 0, 0⟩) ∧
    config_parse_token_buffer_filter_size (fun _ => some 16) "LimitSize" "16"
      ⟨0, 0, 0, 0, 0, 0, 0⟩ = (0, ⟨0, 0, 0, 16, 0, 0, 0⟩) ∧
    config_parse_token_buffer_filter_size (fun _ => some 16) "MPUBytes" "16"
      ⟨0, 0, 0, 0, 0, 0, 0⟩ = (0, ⟨0, 0, 0, 0, 0, 16, 0⟩) ∧
    config_parse_token_buffer_filter_size (fun _ => some 16) "MTUBytes" "16"
      ⟨0, 0, 0, 0, 0, 0, 0⟩ = (0, ⟨0, 0, 0, 0, 16, 0, 0⟩) ∧
    config_parse_token_buffer_filter_size (fun _ => some 16) "PeakRate" "16"
      ⟨0, 0, 0, 0, 0, 0, 0⟩ = (0, ⟨0, 2, 0, 0, 0, 0, 0⟩) :=
  tbf_size_parse_stores (fun _ => some 16) "16" 16
    ⟨0, 0, 0, 0, 0, 0, 0⟩ (by decide) rfl

/-- Truncation toward zero at an assignment of a rational value to an
unsigned field: Rat.floor composed with Int.toNat. Every value this
model applies it to is non-negative, where the floor is exactly the C
truncation toward zero of a double. -/
def truncToNat (q : ℚ) : ℕ := q.floor.toNat

/-- The candidate limit of tbf.c line 38: rate times latency divided by
USEC_PER_SEC plus burst, in exact rational arithmetic in place of the
double of the source. -/
def limCandidate (t : TokenBufferFilter) : ℚ :=
  (t.rate : ℚ) * (t.latency : ℚ) / (USEC_PER_SEC : ℚ) + (t.burst : ℚ)

/-- The peak candidate limit of tbf.c line 40. -/
def lim2Candidate (t : TokenBufferFilter) : ℚ :=
  (t.peak_rate : ℚ) * (t.latency : ℚ) / (USEC_PER_SEC : ℚ) + (t.mtu : ℚ)

/-- The derived limit of tbf.c lines 36-42, before the assignment: lim,
lowered to MIN(lim, lim2) when peak_rate is set. -/
def derivedLimitQ (t : TokenBufferFilter) : ℚ :=
  if 0 < t.peak_rate then min (limCandidate t) (lim2Candidate t)
  else limCandidate t

/-- opt.limit as computed by tbf.c lines 33-44: the configured limit
verbatim when positive, otherwise the derived value truncated toward
zero at the assignment. -/
def effectiveLimit (t : TokenBufferFilter) : ℕ :=
  if 0 < t.limit then t.limit else truncToNat (derivedLimitQ t)

/-- tbf.c lines 30-31: the 32-bit rate field of a rate descriptor, with
the overflow sentinel ~0U = 0xFFFFFFFF when the 64-bit value does not
fit in 32 bits. -/
def clampRate (r : ℕ) : ℕ := if 2 ^ 32 ≤ r then 2 ^ 32 - 1 else r

/-- The fields of struct tc_ratespec other than rate and mpu. They are
produced by the external rate-table calculator; this module never
inspects them. -/
structure RateSpecInternals where
  cell_log : ℕ
  linklayer : ℕ
  overhead : ℕ
  cell_align : ℕ
deriving Repr, DecidableEq

/-- struct tc_ratespec: the kernel rate descriptor. -/
structure TcRateSpec where
  internals : RateSpecInternals
  mpu : ℕ
  rate : ℕ
deriving Repr, DecidableEq

/-- struct tc_tbf_qopt: the primary options record of the TBF kind. -/
structure TcTbfQopt where
  rate : TcRateSpec
  peakrate : TcRateSpec
  limit : ℕ
  buffer : ℕ
  mtu : ℕ
deriving Repr, DecidableEq

/-- Modelled from the spec: the two external numeric calculators of
tc-util, whose code is not part of this module. fill_ratespec_and_table
takes the rate and mpu fields of a descriptor together with the mtu
argument and produces the finalized internal fields of the descriptor
and a 256-entry lookup table; per spec section 4.1 it does not alter
the rate and mpu fields themselves. transmit_time takes a 32-bit rate
and a byte count and produces the time to drain that many bytes. An
error result carries the negative return value r < 0 of the C call. -/
structure ExternalCalcs where
  fill_ratespec_and_table :
    ℕ → ℕ → ℕ → Except Int (RateSpecInternals × (Fin 256 → ℕ))
  transmit_time : ℕ → ℕ → Except Int ℕ

/-- One netlink attribute appended inside the TCA_OPTIONS container, in
the order of the constructors: TCA_TBF_PARMS, TCA_TBF_BURST,
TCA_TBF_RATE64, TCA_TBF_RTAB, TCA_TBF_PRATE64, TCA_TBF_PBURST,
TCA_TBF_PTAB. -/
inductive Attr where
  | parms (opt : TcTbfQopt)
  | burst (b : ℕ)
  | rate64 (r : ℕ)
  | rtab (tab : Fin 256 → ℕ)
  | prate64 (r : ℕ)
  | pburst (m : ℕ)
  | ptab (tab : Fin 256 → ℕ)

/-- The one TCA_OPTIONS container the encoder opens with kind "tbf" and
closes after appending its attributes. -/
structure Message where
  kind : String
  attrs : List Attr

/-- The options record built on the path where peak_rate is unset: the
peak descriptor keeps its zero initialization apart from its rate field
set on line 31, and opt.mtu stays 0. -/
def mainOpt (t : TokenBufferFilter) (ri : RateSpecInternals) (buf : ℕ) :
    TcTbfQopt :=
  { rate := { internals := ri, mpu := t.mpu, rate := clampRate t.rate },
    peakrate := { internals := ⟨0, 0, 0, 0⟩, mpu := 0, rate := clampRate t.peak_rate },
    limit := effectiveLimit t,
    buffer := buf,
    mtu := 0 }

/-- The options record built on the path where peak_rate is set: lines
56-66 additionally set the peak mpu, the peak internals and opt.mtu. -/
def peakOpt (t : TokenBufferFilter) (ri : RateSpecInternals) (buf : ℕ)
    (pki : RateSpecInternals) (pmtu : ℕ) : TcTbfQopt :=
  { rate := { internals := ri, mpu := t.mpu, rate := clampRate t.rate },
    peakrate := { internals := pki, mpu := t.mpu, rate := clampRate t.peak_rate },
    limit := effectiveLimit t,
    buffer := buf,
    mtu := pmtu }

/-- The attribute sequence of tbf.c lines 68-108 when peak_rate is
unset: parms, burst, rate64 only when rate needs 64 bits, rtab. -/
def mkMainMessage (t : TokenBufferFilter) (ri : RateSpecInternals)
    (buf : ℕ) (rt : Fin 256 → ℕ) : Message :=
  { kind := "tbf",
    attrs := [Attr.parms (mainOpt t ri buf), Attr.burst t.burst]
      ++ (if 2 ^ 32 ≤ t.rate then [Attr.rate64 t.rate] else [])
      ++ [Attr.rtab rt] }

/-- The attribute sequence of tbf.c lines 68-108 when peak_rate is set:
additionally prate64 only when peak_rate needs 64 bits, then pburst
carrying mtu, then ptab. -/
def mkPeakMessage (t : TokenBufferFilter) (ri : RateSpecInternals)
    (buf : ℕ) (pki : RateSpecInternals) (pmtu : ℕ)
    (rt pt : Fin 256 → ℕ) : Message :=
  { kind := "tbf",
    attrs := [Attr.parms (peakOpt t ri buf pki pmtu), Attr.burst t.burst]
      ++ (if 2 ^ 32 ≤ t.rate then [Attr.rate64 t.rate] else [])
      ++ [Attr.rtab rt]
      ++ (if 2 ^ 32 ≤ t.peak_rate then [Attr.prate64 t.peak_rate] else [])
      ++ [Attr.pburst t.mtu, Attr.ptab pt] }

/-- token_buffer_filter_fill_message (tbf.c lines 18-111): build the
options record, run the primary calculator calls, run the peak
calculator calls when the clamped peak rate is positive, then emit the
container. A negative calculator return aborts the encode with that
error before any attribute is emitted; the message-append calls
themselves belong to the external transport and are modelled as
succeeding. -/
def token_buffer_filter_fill_message (cs : ExternalCalcs)
    (t : TokenBufferFilter) : Except Int Message :=
  match cs.fill_ratespec_and_table (clampRate t.rate) t.mpu t.mtu with
  | Except.error r => Except.error r
  | Except.ok (ri, rt) =>
      match cs.transmit_time (clampRate t.rate) t.burst with
      | Except.error r => Except.error r
      | Except.ok buf =>
          if 0 < clampRate t.peak_rate then
            match cs.fill_ratespec_and_table (clampRate t.peak_rate) t.mpu t.mtu with
            | Except.error r => Except.error r
            | Except.ok (pki, pt) =>
                match cs.transmit_time (clampRate t.peak_rate) t.mtu with
                | Except.error r => Except.error r
                | Except.ok pmtu => Except.ok (mkPeakMessage t ri buf pki pmtu rt pt)
          else
            Except.ok (mkMainMessage t ri buf rt)

/-- The head attribute of a message when it is a TCA_TBF_PARMS record. -/
def parmsOf (m : Message) : Option TcTbfQopt :=
  match m.attrs with
  | Attr.parms o :: _ => some o
  | _ => none

/-- The buffer field of the options record of a successful encode. -/
def bufferOf (e : Except Int Message) : Option ℕ :=
  match e with
  | Except.ok m => (parmsOf m).map TcTbfQopt.buffer
  | Except.error _ => none

theorem clampRate_pos (r : ℕ) : 0 < clampRate r ↔ 0 < r := by
  unfold clampRate
  split <;> omega

/-- Inversion of a successful encode: the two primary calculator calls
succeeded, and the message is the main shape with a zero clamped peak
rate or the peak shape with the two peak calculator calls succeeding. -/
theorem fill_message_ok_elim {cs : ExternalCalcs} {t : TokenBufferFilter}
    {m : Message}
    (h : token_buffer_filter_fill_message cs t = Except.ok m) :
    ∃ ri rt buf,
      cs.fill_ratespec_and_table (clampRate t.rate) t.mpu t.mtu
          = Except.ok (ri, rt) ∧
      cs.transmit_time (clampRate t.rate) t.burst = Except.ok buf ∧
      ((clampRate t.peak_rate = 0 ∧ m = mkMainMessage t ri buf rt) ∨
       (0 < clampRate t.peak_rate ∧ ∃ pki pt pmtu,
         cs.fill_ratespec_and_table (clampRate t.peak_rate) t.mpu t.mtu
             = Except.ok (pki, pt) ∧
         cs.transmit_time (clampRate t.peak_rate) t.mtu = Except.ok pmtu ∧
         m = mkPeakMessage t ri buf pki pmtu rt pt)) := by
  unfold token_buffer_filter_fill_message at h
  cases h1 : cs.fill_ratespec_and_table (clampRate t.rate) t.mpu t.mtu with
  | error r => simp [h1] at h
  | ok p =>
      obtain ⟨ri, rt⟩ := p
      simp only [h1] at h
      cases h2 : cs.transmit_time (clampRate t.rate) t.burst with
      | error r => simp [h2] at h
      | ok buf =>
          simp only [h2] at h
          refine ⟨ri, rt, buf, rfl, rfl, ?_⟩
          by_cases hp : 0 < clampRate t.peak_rate
          · rw [if_pos hp] at h
            cases h3 : cs.fill_ratespec_and_table (clampRate t.peak_rate) t.mpu t.mtu with
            | error r => simp [h3] at h
            | ok q =>
                obtain ⟨pki, pt⟩ := q
                simp only [h3] at h
                cases h4 : cs.transmit_time (clampRate t.peak_rate) t.mtu with
                | error r => simp [h4] at h
                | ok pmtu =>
                    simp only [h4] at h
                    exact Or.inr ⟨hp, pki, pt, pmtu, rfl, rfl, (Except.ok.inj h).symm⟩
          · rw [if_neg hp] at h
            exact Or.inl ⟨by omega, (Except.ok.inj h).symm⟩

/-- The parms record always heads a successful encode, and its limit,
rate, peak rate and buffer fields are as built on lines 30-54. -/
theorem fill_parms_fields {cs : ExternalCalcs} {t : TokenBufferFilter}
    {m : Message}
    (h : token_buffer_filter_fill_message cs t = Except.ok m) :
    ∃ o, parmsOf m = some o ∧
      o.limit = effectiveLimit t ∧
      o.rate.rate = clampRate t.rate ∧
      o.peakrate.rate = clampRate t.peak_rate ∧
      cs.transmit_time (clampRate t.rate) t.burst = Except.ok o.buffer := by
  obtain ⟨ri, rt, buf, h1, h2, hcase⟩ := fill_message_ok_elim h
  cases hcase with
  | inl hc =>
      exact ⟨mainOpt t ri buf, by rw [hc.2]; rfl, rfl, rfl, rfl, h2⟩
  | inr hc =>
      obtain ⟨hp, pki, pt, pmtu, h3, h4, hm⟩ := hc
      exact ⟨peakOpt t ri buf pki pmtu, by rw [hm]; rfl, rfl, rfl, rfl, h2⟩

theorem truncToNat_eq_floor (q : ℚ) : truncToNat q = (⌊q⌋).toNat := by
  unfold truncToNat
  rw [Rat.floor_def', Rat.floor_def]

theorem truncToNat_natCast (n : ℕ) : truncToNat ((n : ℕ) : ℚ) = n := by
  rw [truncToNat_eq_floor, Int.floor_natCast]
  exact Int.toNat_natCast n

theorem truncToNat_mono : Monotone truncToNat := by
  intro a b hab
  rw [truncToNat_eq_floor, truncToNat_eq_floor]
  exact Int.toNat_le_toNat (Int.floor_le_floor hab)

theorem truncToNat_min (a b : ℚ) :
    truncToNat (min a b) = min (truncToNat a) (truncToNat b) :=
  truncToNat_mono.map_min

theorem truncToNat_lt_iff (q : ℚ) (n : ℕ) (hn : n ≠ 0) :
    truncToNat q < n ↔ q < (n : ℚ) := by
  rw [truncToNat_eq_floor, Int.toNat_lt' hn, Int.floor_lt]
  norm_num

/-- The derived-limit formula as the specification words it: each
candidate is rate times (latency divided by one million) plus the byte
count, truncated toward zero, and the minimum of the two candidates is
taken when peak_rate is set. Stated separately from the source-derived
effectiveLimit so that C1 compares the two. -/
def specDerivedLimit (t : TokenBufferFilter) : ℕ :=
  if 0 < t.peak_rate then
    min (truncToNat ((t.rate : ℚ) * ((t.latency : ℚ) / (USEC_PER_SEC : ℚ)) + (t.burst : ℚ)))
        (truncToNat ((t.peak_rate : ℚ) * ((t.latency : ℚ) / (USEC_PER_SEC : ℚ)) + (t.mtu : ℚ)))
  else
    truncToNat ((t.rate : ℚ) * ((t.latency : ℚ) / (USEC_PER_SEC : ℚ)) + (t.burst : ℚ))

/-- The example configuration of the spec: rate 125000 bytes per
second, burst 1600 bytes, latency 100000 microseconds, no explicit
limit, no peak rate. -/
def exampleTbf : TokenBufferFilter := ⟨125000, 0, 1600, 0, 0, 0, 100000⟩

theorem exampleTbf_limCandidate : limCandidate exampleTbf = ((14100 : ℕ) : ℚ) := by
  unfold limCandidate exampleTbf USEC_PER_SEC
  push_cast
  norm_num

theorem exampleTbf_effectiveLimit : effectiveLimit exampleTbf = 14100 := by
  unfold effectiveLimit derivedLimitQ
  rw [if_neg (by decide), if_neg (by decide), exampleTbf_limCandidate, truncToNat_natCast]

/-- C1: for every validated configuration with limit unset, the
effective limit is the spec formula rate times (latency / 1e6) plus
burst truncated toward zero — lowered to the minimum with the peak
candidate peak_rate times (latency / 1e6) plus mtu, also truncated,
when peak_rate is set — and the options record of every successful
encode carries exactly that value. -/
theorem tbf_derived_limit_matches_spec (t : TokenBufferFilter)
    (hv : token_buffer_filter_verify t = 0) (h0 : t.limit = 0) :
    effectiveLimit t = specDerivedLimit t ∧
    ∀ (cs : ExternalCalcs) (m : Message),
      token_buffer_filter_fill_message cs t = Except.ok m →
      ∃ o, parmsOf m = some o ∧ o.limit = specDerivedLimit t := by
  have harg1 : (t.rate : ℚ) * (t.latency : ℚ) / (USEC_PER_SEC : ℚ) + (t.burst : ℚ)
      = (t.rate : ℚ) * ((t.latency : ℚ) / (USEC_PER_SEC : ℚ)) + (t.burst : ℚ) := by
    ring
  have harg2 : (t.peak_rate : ℚ) * (t.latency : ℚ) / (USEC_PER_SEC : ℚ) + (t.mtu : ℚ)
      = (t.peak_rate : ℚ) * ((t.latency : ℚ) / (USEC_PER_SEC : ℚ)) + (t.mtu : ℚ) := by
    ring
  have he : effectiveLimit t = specDerivedLimit t := by
    unfold effectiveLimit specDerivedLimit derivedLimitQ limCandidate lim2Candidate
    rw [if_neg (by omega)]
    split_ifs with hp
    · rw [truncToNat_min, harg1, harg2]
    · rw [harg1]
  refine ⟨he, fun cs m hm => ?_⟩
  obtain ⟨o, ho1, ho2, _, _, _⟩ := fill_parms_fields hm
  exact ⟨o, ho1, by rw [ho2, he]⟩

theorem tbf_derived_limit_matches_spec_witness :
    token_buffer_filter_verify exampleTbf = 0 ∧
    exampleTbf.limit = 0 ∧
    effectiveLimit exampleTbf = 14100 ∧
    (effectiveLimit exampleTbf = specDerivedLimit exampleTbf ∧
     ∀ (cs : ExternalCalcs) (m : Message),
       token_buffer_filter_fill_message cs exampleTbf = Except.ok m →
       ∃ o, parmsOf m = some o ∧ o.limit = specDerivedLimit exampleTbf) :=
  ⟨by decide, rfl, exampleTbf_effectiveLimit,
    tbf_derived_limit_matches_spec exampleTbf (by decide) rfl⟩

/-- A validated configuration with an explicit limit and a rate that
needs 64 bits: rate 2^32, burst 1, limit 1. -/
def bigRateTbf : TokenBufferFilter := ⟨2 ^ 32, 0, 1, 1, 0, 0, 0⟩

/-- C2: for every configuration with a positive explicit limit, the
effective limit equals limit exactly, whatever latency, rate, burst,
peak_rate and mtu are, and the options record of every successful
encode carries exactly that value. -/
theorem tbf_explicit_limit_verbatim (t : TokenBufferFilter)
    (h : 0 < t.limit) :
    effectiveLimit t = t.limit ∧
    ∀ (cs : ExternalCalcs) (m : Message),
      token_buffer_filter_fill_message cs t = Except.ok m →
      ∃ o, parmsOf m = some o ∧ o.limit = t.limit := by
  have he : effectiveLimit t = t.limit := by
    unfold effectiveLimit
    rw [if_pos h]
  refine ⟨he, fun cs m hm => ?_⟩
  obtain ⟨o, ho1, ho2, _, _, _⟩ := fill_parms_fields hm
  exact ⟨o, ho1, by rw [ho2, he]⟩

theorem tbf_explicit_limit_verbatim_witness :
    0 < bigRateTbf.limit ∧
    (effectiveLimit bigRateTbf = bigRateTbf.limit ∧
     ∀ (cs : ExternalCalcs) (m : Message),
       token_buffer_filter_fill_message cs bigRateTbf = Except.ok m →
       ∃ o, parmsOf m = some o ∧ o.limit = bigRateTbf.limit) :=
  ⟨by decide, tbf_explicit_limit_verbatim bigRateTbf (by decide)⟩

/-- C10 amended: for a validated configuration with limit unset, the
derived value fits the 32-bit limit field exactly when the rational
value itself is below 2^32; the fit is not unconditional. -/
theorem tbf_limit_representable_iff (t : TokenBufferFilter)
    (hv : token_buffer_filter_verify t = 0) (h0 : t.limit = 0) :
    effectiveLimit t < 2 ^ 32 ↔ derivedLimitQ t < ((2 ^ 32 : ℕ) : ℚ) := by
  unfold effectiveLimit
  rw [if_neg (by omega)]
  exact truncToNat_lt_iff (derivedLimitQ t) (2 ^ 32) (by norm_num)

theorem tbf_limit_representable_iff_witness :
    token_buffer_filter_verify exampleTbf = 0 ∧
    exampleTbf.limit = 0 ∧
    (effectiveLimit exampleTbf < 2 ^ 32 ↔
      derivedLimitQ exampleTbf < ((2 ^ 32 : ℕ) : ℚ)) :=
  ⟨by decide, rfl, tbf_limit_representable_iff exampleTbf (by decide) rfl⟩

/-- C10 counterexample: a validated configuration with limit unset
whose derived limit is 2^40 + 1, far above what the 32-bit limit field
of the options record can hold: rate 2^40 bytes per second, latency one
second, burst 1. -/
theorem tbf_limit_overflow_cex :
    token_buffer_filter_verify ⟨2 ^ 40, 0, 1, 0, 0, 0, 1000000⟩ = 0 ∧
    (⟨2 ^ 40, 0, 1, 0, 0, 0, 1000000⟩ : TokenBufferFilter).limit = 0 ∧
    2 ^ 32 ≤ effectiveLimit ⟨2 ^ 40, 0, 1, 0, 0, 0, 1000000⟩ := by
  refine ⟨by decide, rfl, ?_⟩
  have h : limCandidate ⟨2 ^ 40, 0, 1, 0, 0, 0, 1000000⟩ = ((2 ^ 40 + 1 : ℕ) : ℚ) := by
    unfold limCandidate USEC_PER_SEC
    push_cast
    norm_num
  unfold effectiveLimit derivedLimitQ
  rw [if_neg (by decide), if_neg (by decide), h, truncToNat_natCast]
  norm_num

/-- Distinguishing calculators: the table calculator returns zero
internals and a zero table, and the transmit-time calculator returns
its rate argument, which makes the rate an encode hands to it
observable in the buffer field. -/
def probeCalcs : ExternalCalcs :=
  ⟨fun _ _ _ => Except.ok (⟨0, 0, 0, 0⟩, fun _ => 0),
   fun speed _ => Except.ok speed⟩

/-- C4: on every successful encode of a validated configuration, the
64-bit rate attribute is present exactly when rate needs 64 bits and
the 64-bit peak-rate attribute exactly when peak_rate needs 64 bits,
while the 32-bit fields of the options record hold the rate itself
below 2^32 and the sentinel 0xFFFFFFFF = 2^32 - 1 from 2^32 on. -/
theorem tbf_rate64_emission_iff (cs : ExternalCalcs) (t : TokenBufferFilter)
    (m : Message) (hv : token_buffer_filter_verify t = 0)
    (hm : token_buffer_filter_fill_message cs t = Except.ok m) :
    ((∃ v, Attr.rate64 v ∈ m.attrs) ↔ 2 ^ 32 ≤ t.rate) ∧
    ((∃ v, Attr.prate64 v ∈ m.attrs) ↔ 2 ^ 32 ≤ t.peak_rate) ∧
    ∃ o, parmsOf m = some o ∧
      o.rate.rate = (if 2 ^ 32 ≤ t.rate then 2 ^ 32 - 1 else t.rate) ∧
      o.peakrate.rate = (if 2 ^ 32 ≤ t.peak_rate then 2 ^ 32 - 1 else t.peak_rate) := by
  obtain ⟨ri, rt, buf, h1, h2, hcase⟩ := fill_message_ok_elim hm
  cases hcase with
  | inl hc =>
      obtain ⟨hz, rfl⟩ := hc
      have hpz : t.peak_rate = 0 := by
        by_contra hne
        have := (clampRate_pos t.peak_rate).mpr (Nat.pos_of_ne_zero hne)
        omega
      by_cases hr : 2 ^ 32 ≤ t.rate <;>
        exact ⟨by simp [mkMainMessage, hr],
               by simp [mkMainMessage, hr, hpz],
               mainOpt t ri buf, rfl,
               by simp [mainOpt, clampRate, hr],
               by simp [mainOpt, clampRate, hpz]⟩
  | inr hc =>
      obtain ⟨hp, pki, pt, pmtu, h3, h4, rfl⟩ := hc
      by_cases hr : 2 ^ 32 ≤ t.rate <;> by_cases hpr : 2 ^ 32 ≤ t.peak_rate <;>
        exact ⟨by simp [mkPeakMessage, hr, hpr],
               by simp [mkPeakMessage, hr, hpr],
               peakOpt t ri buf pki pmtu, rfl,
               by simp [peakOpt, clampRate, hr],
               by simp [peakOpt, clampRate, hpr]⟩

/-- The message a successful probe encode of bigRateTbf produces. -/
def bigRateMsg : Message :=
  mkMainMessage bigRateTbf ⟨0, 0, 0, 0⟩ (2 ^ 32 - 1) (fun _ => 0)

theorem tbf_rate64_emission_iff_witness :
    token_buffer_filter_verify bigRateTbf = 0 ∧
    (((∃ v, Attr.rate64 v ∈ bigRateMsg.attrs) ↔ 2 ^ 32 ≤ bigRateTbf.rate) ∧
     ((∃ v, Attr.prate64 v ∈ bigRateMsg.attrs) ↔ 2 ^ 32 ≤ bigRateTbf.peak_rate) ∧
     ∃ o, parmsOf bigRateMsg = some o ∧
       o.rate.rate = (if 2 ^ 32 ≤ bigRateTbf.rate then 2 ^ 32 - 1 else bigRateTbf.rate) ∧
       o.peakrate.rate =
         (if 2 ^ 32 ≤ bigRateTbf.peak_rate then 2 ^ 32 - 1 else bigRateTbf.peak_rate)) :=
  ⟨by decide,
   tbf_rate64_emission_iff probeCalcs bigRateTbf bigRateMsg (by decide) rfl⟩

/-- C5: every successful encode of a validated configuration is one
container of kind "tbf" holding exactly, in order: the options record,
the burst value, a 64-bit rate value only when rate needs 64 bits, the
primary 256-entry table, and — only when peak_rate is set — a 64-bit
peak-rate value only when peak_rate needs 64 bits, the mtu value as the
peak burst size, and the peak 256-entry table. -/
theorem tbf_attr_sequence (cs : ExternalCalcs) (t : TokenBufferFilter)
    (m : Message) (hv : token_buffer_filter_verify t = 0)
    (hm : token_buffer_filter_fill_message cs t = Except.ok m) :
    ∃ (o : TcTbfQopt) (rt pt : Fin 256 → ℕ),
      m.kind = "tbf" ∧
      m.attrs = [Attr.parms o, Attr.burst t.burst]
        ++ (if 2 ^ 32 ≤ t.rate then [Attr.rate64 t.rate] else [])
        ++ [Attr.rtab rt]
        ++ (if 0 < t.peak_rate then
              (if 2 ^ 32 ≤ t.peak_rate then [Attr.prate64 t.peak_rate] else [])
                ++ [Attr.pburst t.mtu, Attr.ptab pt]
            else []) := by
  obtain ⟨ri, rt, buf, h1, h2, hcase⟩ := fill_message_ok_elim hm
  cases hcase with
  | inl hc =>
      obtain ⟨hz, rfl⟩ := hc
      have hpz : t.peak_rate = 0 := by
        by_contra hne
        have := (clampRate_pos t.peak_rate).mpr (Nat.pos_of_ne_zero hne)
        omega
      exact ⟨mainOpt t ri buf, rt, fun _ => 0, rfl,
        by simp [mkMainMessage, hpz]⟩
  | inr hc =>
      obtain ⟨hp, pki, pt, pmtu, h3, h4, rfl⟩ := hc
      have hppos : 0 < t.peak_rate := (clampRate_pos t.peak_rate).mp hp
      exact ⟨peakOpt t ri buf pki pmtu, rt, pt, rfl,
        by simp [mkPeakMessage, hppos]⟩

/-- A validated configuration with a peak rate: rate 1, peak rate 2,
burst 3, mtu 4, mpu 5, latency 6, no explicit limit. -/
def peakTbf : TokenBufferFilter := ⟨1, 2, 3, 0, 4, 5, 6⟩

/-- The message a successful probe encode of peakTbf produces. -/
def peakMsg : Message :=
  mkPeakMessage peakTbf ⟨0, 0, 0, 0⟩ 1 ⟨0, 0, 0, 0⟩ 2 (fun _ => 0) (fun _ => 0)

theorem tbf_attr_sequence_witness :
    token_buffer_filter_verify peakTbf = 0 ∧
    token_buffer_filter_fill_message probeCalcs peakTbf = Except.ok peakMsg ∧
    ∃ (o : TcTbfQopt) (rt pt : Fin 256 → ℕ),
      peakMsg.kind = "tbf" ∧
      peakMsg.attrs = [Attr.parms o, Attr.burst peakTbf.burst]
        ++ (if 2 ^ 32 ≤ peakTbf.rate then [Attr.rate64 peakTbf.rate] else [])
        ++ [Attr.rtab rt]
        ++ (if 0 < peakTbf.peak_rate then
              (if 2 ^ 32 ≤ peakTbf.peak_rate then [Attr.prate64 peakTbf.peak_rate] else [])
                ++ [Attr.pburst peakTbf.mtu, Attr.ptab pt]
            else []) :=
  ⟨by decide, rfl,
   tbf_attr_sequence probeCalcs peakTbf peakMsg (by decide) rfl⟩

/-- C6 counterexample: with rate 2^32 the encode does not hand the
configured rate to the transmit-time calculator. Under probeCalcs the
buffer field comes back as the clamped 32-bit rate 2^32 - 1, while the
calculator applied to the configured rate and burst returns 2^32. -/
theorem tbf_buffer_configured_rate_cex :
    token_buffer_filter_verify bigRateTbf = 0 ∧
    probeCalcs.transmit_time bigRateTbf.rate bigRateTbf.burst = Except.ok (2 ^ 32) ∧
    bufferOf (token_buffer_filter_fill_message probeCalcs bigRateTbf)
      = some (2 ^ 32 - 1) ∧
    (2 ^ 32 - 1 : ℕ) ≠ 2 ^ 32 := by
  exact ⟨by decide, rfl, rfl, by decide⟩

/-- C6 amended: the buffer field of the options record is the transmit
time the calculator computes for the clamped 32-bit rate field — equal
to the configured rate below 2^32 and to the sentinel 0xFFFFFFFF from
2^32 on — and burst; a transmit-time calculator failure aborts the
encode with no message produced. -/
theorem tbf_buffer_uses_clamped_rate (cs : ExternalCalcs)
    (t : TokenBufferFilter) (hv : token_buffer_filter_verify t = 0) :
    (∀ m, token_buffer_filter_fill_message cs t = Except.ok m →
      ∃ o, parmsOf m = some o ∧
        cs.transmit_time (clampRate t.rate) t.burst = Except.ok o.buffer) ∧
    (∀ e, cs.transmit_time (clampRate t.rate) t.burst = Except.error e →
      ∀ m, token_buffer_filter_fill_message cs t ≠ Except.ok m) := by
  refine ⟨fun m hm => ?_, fun e he m hm => ?_⟩
  · obtain ⟨o, ho1, _, _, _, ho5⟩ := fill_parms_fields hm
    exact ⟨o, ho1, ho5⟩
  · obtain ⟨ri, rt, buf, h1, h2, _⟩ := fill_message_ok_elim hm
    exact Except.noConfusion (he.symm.trans h2)

theorem tbf_buffer_uses_clamped_rate_witness :
    token_buffer_filter_verify bigRateTbf = 0 ∧
    ((∀ m, token_buffer_filter_fill_message probeCalcs bigRateTbf = Except.ok m →
       ∃ o, parmsOf m = some o ∧
         probeCalcs.transmit_time (clampRate bigRateTbf.rate) bigRateTbf.burst
           = Except.ok o.buffer) ∧
     (∀ e, probeCalcs.transmit_time (clampRate bigRateTbf.rate) bigRateTbf.burst
           = Except.error e →
       ∀ m, token_buffer_filter_fill_message probeCalcs bigRateTbf ≠ Except.ok m)) :=
  ⟨by decide, tbf_buffer_uses_clamped_rate probeCalcs bigRateTbf (by decide)⟩

end Systemd.Tc.Tbf
